/-
Verification of the BookMySlot appointment system against its
natural-language specification.

The development shallowly embeds the JavaScript source:
  * `src/client/src/utils/validation.js`  — client-side validator
  * `src/server/models/Booking.js`        — Mongoose schema (server rules)
  * `src/server/routes/bookings.js`       — create / list / delete / export routes
  * `src/client/src/components/BookingsTable.jsx` — client filter and sort

Strings are Lean `String`s; timestamps and identifiers are `Nat`;
the Mongo collection is a `List Booking` in insertion order.
-/
import Mathlib

set_option linter.unusedVariables false

/-! ## Data model

`Booking` mirrors the Mongoose document: the five user fields plus the
store-assigned `_id` (modelled as a `Nat`) and `createdAt` timestamp
(modelled as a `Nat`, milliseconds since epoch). -/

structure Booking where
  id : Nat
  name : String
  email : String
  phone : String
  date : String
  timeSlot : String
  createdAt : Nat
  deriving Repr, DecidableEq

/-- The raw request body of `POST /api/bookings`: the five form fields.
A JavaScript `undefined`/missing string field and the empty string are both
falsy in the route's presence check, so both are modelled by `""`. -/
structure BookingInput where
  name : String
  email : String
  phone : String
  date : String
  timeSlot : String
  deriving Repr, DecidableEq

/-! ## Client validator (`validation.js`) -/

/-- JavaScript `String.prototype.trim` on character lists: drop whitespace
from both ends. -/
def trimChars (cs : List Char) : List Char :=
  ((cs.dropWhile Char.isWhitespace).reverse.dropWhile Char.isWhitespace).reverse

/-- JavaScript `String.prototype.trim`. -/
def jsTrim (s : String) : String :=
  ⟨trimChars s.data⟩

/-- JavaScript `String.prototype.toLowerCase` (on the code points the app
uses it agrees with `Char.toLower`). -/
def jsToLower (s : String) : String :=
  ⟨s.data.map Char.toLower⟩

/-- Models `phone.replace(/\D/g, '')`: keep only the decimal digits of a string. -/
def stripNonDigits (s : String) : String :=
  ⟨s.data.filter Char.isDigit⟩

/-- The function `validatePhone` from `validation.js`: strip non-digit characters and
require exactly 10 digits to remain. -/
def validatePhone (phone : String) : Bool :=
  (stripNonDigits phone).length == 10

/-- A character allowed by the regex character class `[^\s@]`. -/
def isEmailChar (c : Char) : Bool :=
  !c.isWhitespace && c != '@'

/-- A nonempty run of `[^\s@]` characters (`[^\s@]+`). -/
def emailSeg (cs : List Char) : Bool :=
  !cs.isEmpty && cs.all isEmailChar

/-- The function `validateEmail` from `validation.js`: test the (untrimmed) input against
`/^[^\s@]+@[^\s@]+\.[^\s@]+$/`.  A backtracking regex engine accepts exactly
when the character list splits as `a ++ '@' ++ b ++ '.' ++ c` with `a`, `b`,
`c` nonempty runs of `[^\s@]`; we search all positions `p` for the `'@'` and
`q > p` for the `'.'`. -/
def validateEmail (email : String) : Bool :=
  let cs := email.data
  (List.range cs.length).any fun p =>
    (List.range cs.length).any fun q =>
      decide (p < q) && cs.getD p ' ' == '@' && cs.getD q ' ' == '.' &&
        emailSeg (cs.take p) && emailSeg ((cs.drop (p + 1)).take (q - (p + 1))) &&
        emailSeg (cs.drop (q + 1))

/-- The function `validateRequired` from `validation.js`: `value && value.trim().length > 0`
(for string inputs: nonempty, and nonempty after trimming). -/
def validateRequired (value : String) : Bool :=
  value != "" && (jsTrim value).length > 0

/-- The error map returned by `validateBookingForm`: one optional message per
form field, mirroring the JavaScript object whose keys are the failing
fields. -/
structure FormErrors where
  name : Option String := none
  email : Option String := none
  phone : Option String := none
  date : Option String := none
  timeSlot : Option String := none
  deriving Repr, DecidableEq

/-- The function `validateBookingForm` from `validation.js`: run all five per-field rules
and collect a message for each failing field. -/
def validateBookingForm (formData : BookingInput) : FormErrors :=
  { name :=
      if !validateRequired formData.name then some "Name is required"
      else if (jsTrim formData.name).length < 2 then some "Name must be at least 2 characters"
      else none
    email :=
      if !validateRequired formData.email then some "Email is required"
      else if !validateEmail formData.email then some "Please enter a valid email address"
      else none
    phone :=
      if !validateRequired formData.phone then some "Phone number is required"
      else if !validatePhone formData.phone then some "Please enter exactly 10 digits"
      else none
    date :=
      if !validateRequired formData.date then some "Please select a date"
      else none
    timeSlot :=
      if !validateRequired formData.timeSlot then some "Please select a time slot"
      else none }

/-- The client form data is fully valid: the error map is empty. -/
def clientFormValid (formData : BookingInput) : Bool :=
  validateBookingForm formData == {}

/-! ## Server: Mongoose schema (`models/Booking.js`)

Mongoose first applies the schema setters (`trim`, `lowercase`) to each
field and then runs the field validators, recording at most one error per
path, in schema declaration order.  The route joins the collected messages
with `", "`. -/

/-- The schema setters: `trim` on name/email/phone, `lowercase` on email. -/
def applySetters (inp : BookingInput) : BookingInput :=
  { name := jsTrim inp.name
    email := jsToLower (jsTrim inp.email)
    phone := jsTrim inp.phone
    date := inp.date
    timeSlot := inp.timeSlot }

/-- Schema rules for `name`: required, minlength 2, maxlength 100. -/
def nameSchemaError (name : String) : Option String :=
  if name = "" then some "Name is required"
  else if name.length < 2 then some "Name must be at least 2 characters"
  else if 100 < name.length then some "Name cannot exceed 100 characters"
  else none

/-- Schema rules for `email`: required, `match` against the same regex as the
client validator (applied to the trimmed, lowercased value). -/
def emailSchemaError (email : String) : Option String :=
  if email = "" then some "Email is required"
  else if !validateEmail email then some "Please provide a valid email address"
  else none

/-- Schema rules for `phone`: required, minlength 10 — a bound on the number
of characters of the trimmed string, not on its digit count. -/
def phoneSchemaError (phone : String) : Option String :=
  if phone = "" then some "Phone number is required"
  else if phone.length < 10 then some "Phone number must be at least 10 digits"
  else none

/-- Schema rule for a field that is only `required`. -/
def requiredSchemaError (msg value : String) : Option String :=
  if value = "" then some msg else none

/-- All schema validation messages of a (setter-transformed) document, in
schema path order. An empty list means `save()` succeeds. -/
def schemaErrors (doc : BookingInput) : List String :=
  [nameSchemaError doc.name,
   emailSchemaError doc.email,
   phoneSchemaError doc.phone,
   requiredSchemaError "Appointment date is required" doc.date,
   requiredSchemaError "Time slot is required" doc.timeSlot].filterMap id

/-! ## Server routes (`routes/bookings.js`) -/

/-- Response envelope of `POST /api/bookings`. -/
structure CreateResponse where
  status : Nat
  success : Bool
  message : String
  data : Option Booking
  deriving Repr, DecidableEq

/-- The route `POST /api/bookings`: presence check on the five raw fields, then
`new Booking(...).save()` (setters + schema validation). `freshId` models
the store-assigned `_id` and `now` the `createdAt` default. Returns the
response and the new store contents. -/
def createBooking (store : List Booking) (body : BookingInput) (freshId now : Nat) :
    CreateResponse × List Booking :=
  if body.name = "" || body.email = "" || body.phone = "" || body.date = "" ||
      body.timeSlot = "" then
    ({ status := 400, success := false, message := "All fields are required", data := none },
     store)
  else
    let doc := applySetters body
    match schemaErrors doc with
    | [] =>
      let saved : Booking :=
        { id := freshId, name := doc.name, email := doc.email, phone := doc.phone,
          date := doc.date, timeSlot := doc.timeSlot, createdAt := now }
      ({ status := 201, success := true, message := "Booking created successfully",
         data := some saved },
       store ++ [saved])
    | errs =>
      ({ status := 400, success := false, message := String.intercalate ", " errs,
         data := none },
       store)

/-- Field `createdAt` descending — the order of `.sort(\x7b createdAt: -1 \x7d)`. -/
def createdAtDesc (a b : Booking) : Prop :=
  b.createdAt ≤ a.createdAt

instance : DecidableRel createdAtDesc := fun a b =>
  inferInstanceAs (Decidable (b.createdAt ≤ a.createdAt))

/-- Response envelope of `GET /api/bookings`. -/
structure ListResponse where
  status : Nat
  success : Bool
  count : Nat
  data : List Booking
  deriving Repr, DecidableEq

/-- The route `GET /api/bookings`: all bookings sorted newest first, with a `count`
field set to the length of the fetched array. -/
def getBookings (store : List Booking) : ListResponse :=
  let bookings := List.insertionSort createdAtDesc store
  { status := 200, success := true, count := bookings.length, data := bookings }

/-- Response envelope of `DELETE /api/bookings/:id`. -/
structure DeleteResponse where
  status : Nat
  success : Bool
  message : String
  deriving Repr, DecidableEq

/-- Models `Booking.findByIdAndDelete(id)`: return the first record whose `_id`
matches (ids are unique in the store) and the store with it removed; if no
record matches, the store is untouched. -/
def findByIdAndDelete (store : List Booking) (id : Nat) : Option Booking × List Booking :=
  match store with
  | [] => (none, [])
  | b :: rest =>
    if b.id = id then (some b, rest)
    else
      let res := findByIdAndDelete rest id
      (res.1, b :: res.2)

/-- The route `DELETE /api/bookings/:id`: 404 when nothing matched, 200 otherwise. -/
def deleteBooking (store : List Booking) (id : Nat) : DeleteResponse × List Booking :=
  match findByIdAndDelete store id with
  | (none, _) =>
    ({ status := 404, success := false, message := "Booking not found" }, store)
  | (some _, rest) =>
    ({ status := 200, success := true, message := "Booking deleted successfully" }, rest)

/-! ## Report generator (`GET /api/bookings/export`)

The worksheet is modelled as its grid of cell texts: one header row from
`worksheet.columns`, then one row per booking added by the
`bookings.forEach((booking, index) => worksheet.addRow(...))` loop.
`fmt` stands for `ts => new Date(ts).toLocaleString('en-IN', ...)`: a fixed
function of the timestamp once the locale is fixed. -/

/-- The header row defined by `worksheet.columns`. -/
def headerRow : List String :=
  ["S.No", "Name", "Email", "Phone", "Date", "Time Slot", "Booked On"]

/-- The cells of the data row added for `booking` at position `index`. -/
def bookingRow (fmt : Nat → String) (index : Nat) (b : Booking) : List String :=
  [toString (index + 1), b.name, b.email, b.phone, b.date, b.timeSlot, fmt b.createdAt]

/-- The `forEach` loop: add one row per booking, threading the index. -/
def addRows (fmt : Nat → String) : List Booking → Nat → List (List String)
  | [], _ => []
  | b :: rest, index => bookingRow fmt index b :: addRows fmt rest (index + 1)

/-- The full worksheet produced for a given ordered list of bookings. -/
def exportWorksheet (fmt : Nat → String) (bookings : List Booking) : List (List String) :=
  headerRow :: addRows fmt bookings 0

/-! ## Client list view (`BookingsTable.jsx`) -/

/-- Models `s.includes(sub)` on character lists: some suffix of `s` starts with
`sub`. -/
def containsSub (s sub : List Char) : Bool :=
  (List.range (s.length + 1)).any fun i => (s.drop i).take sub.length == sub

/-- JavaScript `String.prototype.includes`. -/
def jsIncludes (s sub : String) : Bool :=
  containsSub s.data sub.data

/-- The filter predicate of `filteredBookings`: lowercased term against
lowercased name/email/date/timeSlot, raw term against phone. -/
def matchesSearch (searchTerm : String) (b : Booking) : Bool :=
  let lowerSearch := jsToLower searchTerm
  jsIncludes (jsToLower b.name) lowerSearch ||
  jsIncludes (jsToLower b.email) lowerSearch ||
  jsIncludes b.phone searchTerm ||
  jsIncludes (jsToLower b.date) lowerSearch ||
  jsIncludes (jsToLower b.timeSlot) lowerSearch

/-- The memo `filteredBookings`: `if (!searchTerm) return bookings;` then
`bookings.filter(...)`. -/
def filteredBookings (bookings : List Booking) (searchTerm : String) : List Booking :=
  if searchTerm = "" then bookings
  else bookings.filter (matchesSearch searchTerm)

/-- The three sortable fields of the table's comparator. -/
inductive SortField where
  | createdAt
  | name
  | date
  deriving Repr, DecidableEq

/-- Sort direction from the dropdown. -/
inductive SortDir where
  | asc
  | desc
  deriving Repr, DecidableEq

/-- The two-way comparison at the heart of the comparator:
`if (aValue < bValue) return asc ? -1 : 1; if (aValue > bValue) return
asc ? 1 : -1; return 0;`. -/
def compareLt {α : Type} (lt : α → α → Bool) (dir : SortDir) (aV bV : α) : Int :=
  if lt aV bV then (match dir with | .asc => -1 | .desc => 1)
  else if lt bV aV then (match dir with | .asc => 1 | .desc => -1)
  else 0

/-- The comparator passed to `sorted.sort(...)`: timestamps compare
numerically, name/date compare as lowercased strings. -/
def sortCompare (field : SortField) (dir : SortDir) (a b : Booking) : Int :=
  match field with
  | .createdAt => compareLt (fun x y : Nat => decide (x < y)) dir a.createdAt b.createdAt
  | .name => compareLt (fun x y : String => decide (x < y)) dir (jsToLower a.name) (jsToLower b.name)
  | .date => compareLt (fun x y : String => decide (x < y)) dir (jsToLower a.date) (jsToLower b.date)

/-- The order a stable JavaScript `Array.prototype.sort` establishes for a
comparator `c`: `a` may stay before `b` exactly when `c(a,b) ≤ 0`. -/
def sortLE (field : SortField) (dir : SortDir) (a b : Booking) : Prop :=
  sortCompare field dir a b ≤ 0

instance (field : SortField) (dir : SortDir) : DecidableRel (sortLE field dir) := fun a b =>
  inferInstanceAs (Decidable (sortCompare field dir a b ≤ 0))

/-- The memo `sortedBookings`: copy the filtered list and sort it with the comparator;
`Array.prototype.sort` is stable (ECMA-262), modelled by a stable insertion
sort. -/
def sortedBookings (field : SortField) (dir : SortDir) (bookings : List Booking) :
    List Booking :=
  List.insertionSort (sortLE field dir) bookings

/-! ## Helper lemmas -/

/-- Splitting a list at an in-bounds position around the element there. -/
theorem take_getD_drop {cs : List Char} {p : Nat} (h : p < cs.length) :
    cs.take p ++ cs.getD p ' ' :: cs.drop (p + 1) = cs := by
  rw [List.getD_eq_getElem?_getD, List.getElem?_eq_getElem h, Option.getD_some,
    ← List.drop_eq_getElem_cons h, List.take_append_drop]

/-- The run check `emailSeg` unfolded to a proposition. -/
theorem emailSeg_iff {l : List Char} :
    emailSeg l = true ↔ l ≠ [] ∧ ∀ ch ∈ l, isEmailChar ch = true := by
  simp [emailSeg, List.isEmpty_iff]

/-- The acceptance proposition of the regex `^[^\s@]+@[^\s@]+\.[^\s@]+$`:
the characters split as `a ++ '@' ++ b ++ '.' ++ c` with `a`, `b`, `c`
nonempty runs of characters that are neither whitespace nor `'@'`. -/
def codeEmailPattern (s : String) : Prop :=
  ∃ a b c : List Char,
    s.data = a ++ '@' :: (b ++ '.' :: c) ∧
    a ≠ [] ∧ (∀ ch ∈ a, isEmailChar ch = true) ∧
    b ≠ [] ∧ (∀ ch ∈ b, isEmailChar ch = true) ∧
    c ≠ [] ∧ (∀ ch ∈ c, isEmailChar ch = true)

/-- The email pattern as the specification words it: the last run after the
`'.'` only excludes whitespace (rather than whitespace and `'@'`), and the
pattern is applied to the trimmed value. -/
def specEmailPattern (s : String) : Prop :=
  ∃ a b c : List Char,
    (jsTrim s).data = a ++ '@' :: (b ++ '.' :: c) ∧
    a ≠ [] ∧ (∀ ch ∈ a, isEmailChar ch = true) ∧
    b ≠ [] ∧ (∀ ch ∈ b, isEmailChar ch = true) ∧
    c ≠ [] ∧ (∀ ch ∈ c, ch.isWhitespace = false)

theorem validateEmail_iff (s : String) :
    validateEmail s = true ↔ codeEmailPattern s := by
  constructor
  · intro h
    simp only [validateEmail, List.any_eq_true, List.mem_range, Bool.and_eq_true,
      decide_eq_true_eq, beq_iff_eq] at h
    obtain ⟨p, hp, q, hq, ⟨⟨⟨⟨hpq, hat⟩, hdot⟩, hA⟩, hB⟩, hC⟩ := h
    refine ⟨s.data.take p, (s.data.drop (p + 1)).take (q - (p + 1)), s.data.drop (q + 1),
      ?_, (emailSeg_iff.mp hA).1, (emailSeg_iff.mp hA).2,
      (emailSeg_iff.mp hB).1, (emailSeg_iff.mp hB).2,
      (emailSeg_iff.mp hC).1, (emailSeg_iff.mp hC).2⟩
    have hq1 : q - (p + 1) < (s.data.drop (p + 1)).length := by
      rw [List.length_drop]; omega
    have hmid : (s.data.drop (p + 1)).getD (q - (p + 1)) ' ' = s.data.getD q ' ' := by
      rw [List.getD_eq_getElem _ _ hq1, List.getElem_drop,
        List.getD_eq_getElem _ _ (by omega : q < s.data.length)]
      congr 1; omega
    have h2 : (s.data.drop (p + 1)).take (q - (p + 1)) ++ '.' :: s.data.drop (q + 1) =
        s.data.drop (p + 1) := by
      have h3 := take_getD_drop hq1
      rw [hmid, hdot] at h3
      have h4 : (s.data.drop (p + 1)).drop (q - (p + 1) + 1) = s.data.drop (q + 1) := by
        rw [List.drop_drop]
        congr 1
        omega
      rw [h4] at h3
      exact h3
    conv_lhs => rw [← take_getD_drop (show p < s.data.length by omega), hat, ← h2]
  · rintro ⟨a, b, c, hsplit, ha0, haE, hb0, hbE, hc0, hcE⟩
    have hlen : s.data.length = a.length + 1 + b.length + 1 + c.length := by
      simp [hsplit]; omega
    have hc1 : 0 < c.length := List.length_pos.mpr hc0
    simp only [validateEmail, List.any_eq_true, List.mem_range, Bool.and_eq_true,
      decide_eq_true_eq, beq_iff_eq]
    refine ⟨a.length, by omega, a.length + 1 + b.length, by omega,
      ⟨⟨⟨⟨by omega, ?_⟩, ?_⟩, ?_⟩, ?_⟩, ?_⟩
    · rw [hsplit]
      rw [List.getD_eq_getElem?_getD, List.getElem?_append_right (by omega)]
      simp
    · rw [hsplit]
      have hassoc : a ++ '@' :: (b ++ '.' :: c) = (a ++ '@' :: b) ++ '.' :: c := by
        simp [List.append_assoc]
      rw [hassoc, List.getD_eq_getElem?_getD,
        List.getElem?_append_right (by simp; omega)]
      have hidx : a.length + 1 + b.length - (a ++ '@' :: b).length = 0 := by
        simp
        omega
      rw [hidx]
      simp
    · rw [hsplit, List.take_left' rfl]
      exact emailSeg_iff.mpr ⟨ha0, haE⟩
    · have hdropP : s.data.drop (a.length + 1) = b ++ '.' :: c := by
        rw [hsplit]
        have : a ++ '@' :: (b ++ '.' :: c) = (a ++ ['@']) ++ (b ++ '.' :: c) := by
          simp
        rw [this, List.drop_left' (by simp)]
      rw [hdropP]
      have : a.length + 1 + b.length - (a.length + 1) = b.length := by omega
      rw [this, List.take_left' rfl]
      exact emailSeg_iff.mpr ⟨hb0, hbE⟩
    · have : s.data.drop (a.length + 1 + b.length + 1) = c := by
        rw [hsplit]
        have h3 : a ++ '@' :: (b ++ '.' :: c) = (a ++ '@' :: b ++ ['.']) ++ c := by
          simp
        rw [h3, List.drop_left' (by simp; omega)]
      rw [this]
      exact emailSeg_iff.mpr ⟨hc0, hcE⟩

/-! ## Claim theorems -/

/-- C2: for every string input, `validatePhone` passes if and only if
stripping all non-digit characters yields a string of length exactly 10,
regardless of formatting characters: "987-654-3210" passes, "98765432" and
"987654321012" fail. -/
theorem validatePhone_iff_ten_digits :
    (∀ s : String, validatePhone s = true ↔ (stripNonDigits s).length = 10) ∧
    validatePhone "987-654-3210" = true ∧
    validatePhone "98765432" = false ∧
    validatePhone "987654321012" = false := by
  refine ⟨fun s => ?_, by decide, by decide, by decide⟩
  simp [validatePhone]

/-- C3 (counterexample): the claim that `validateEmail` passes exactly when
the *trimmed* value matches "non-space-non-@ run, `@`, non-space-non-@ run,
`.`, non-space run" is false: `" a@b.c "` trims to a matching value yet is
rejected (the code never trims), and `"a@b.c@d"` matches the claimed pattern
(the run after the `'.'` merely has to avoid whitespace) yet is rejected
(the regex also excludes `'@'` after the dot). -/
theorem validateEmail_spec_pattern_cex :
    validateEmail " a@b.c " = false ∧ specEmailPattern " a@b.c " ∧
    validateEmail "a@b.c@d" = false ∧ specEmailPattern "a@b.c@d" := by
  refine ⟨by decide, ⟨['a'], ['b'], ['c'], by decide, by decide, by decide, by decide,
    by decide, by decide, by decide⟩, by decide,
    ⟨['a'], ['b'], ['c', '@', 'd'], by decide, by decide, by decide, by decide,
    by decide, by decide, by decide⟩⟩

/-- C3 (amended): `validateEmail` passes iff the *raw, untrimmed* value
splits as one-or-more characters that are neither whitespace nor `'@'`,
then `'@'`, then one-or-more such characters, then `'.'`, then one-or-more
characters that are again neither whitespace nor `'@'`; in particular every
input lacking an `'@'`, or lacking a `'.'` after an `'@'`, fails. -/
theorem validateEmail_split_charactn :
    (∀ s : String, validateEmail s = true ↔ codeEmailPattern s) ∧
    (∀ s : String, '@' ∉ s.data → validateEmail s = false) ∧
    (∀ s : String,
      (∀ p q : Nat, p < q → s.data.getD p ' ' = '@' → s.data.getD q ' ' ≠ '.') →
      validateEmail s = false) := by
  refine ⟨validateEmail_iff, fun s hs => ?_, fun s hs => ?_⟩
  · by_contra h
    rw [Bool.not_eq_false] at h
    obtain ⟨a, b, c, hsplit, -⟩ := (validateEmail_iff s).mp h
    exact hs (by rw [hsplit]; simp)
  · by_contra h
    rw [Bool.not_eq_false] at h
    simp only [validateEmail, List.any_eq_true, List.mem_range, Bool.and_eq_true,
      decide_eq_true_eq, beq_iff_eq] at h
    obtain ⟨p, hp, q, hq, ⟨⟨⟨⟨hpq, hat⟩, hdot⟩, -⟩, -⟩, -⟩ := h
    exact hs p q hpq hat hdot

/-- The pass condition of `validateBookingForm`'s name branch. -/
def nameFieldOk (v : String) : Bool :=
  validateRequired v && !decide ((jsTrim v).length < 2)

/-- The pass condition of `validateBookingForm`'s email branch. -/
def emailFieldOk (v : String) : Bool :=
  validateRequired v && validateEmail v

/-- The pass condition of `validateBookingForm`'s phone branch. -/
def phoneFieldOk (v : String) : Bool :=
  validateRequired v && validatePhone v

/-- C4: `validateBookingForm` evaluates the five field rules independently
(each entry of the error map depends only on its own field) and returns a
map whose populated keys are exactly the failing fields; in particular when
email is missing and the other four fields pass, the map holds exactly the
key `email`.  The embedding is a pure function, matching the no-side-effects
clause. -/
theorem validateBookingForm_exact_failing_fields :
    ∀ fd fd' : BookingInput,
      ((validateBookingForm fd).name = none ↔ nameFieldOk fd.name = true) ∧
      ((validateBookingForm fd).email = none ↔ emailFieldOk fd.email = true) ∧
      ((validateBookingForm fd).phone = none ↔ phoneFieldOk fd.phone = true) ∧
      ((validateBookingForm fd).date = none ↔ validateRequired fd.date = true) ∧
      ((validateBookingForm fd).timeSlot = none ↔ validateRequired fd.timeSlot = true) ∧
      (fd.name = fd'.name →
        (validateBookingForm fd).name = (validateBookingForm fd').name) ∧
      (fd.email = fd'.email →
        (validateBookingForm fd).email = (validateBookingForm fd').email) ∧
      (fd.phone = fd'.phone →
        (validateBookingForm fd).phone = (validateBookingForm fd').phone) ∧
      (fd.date = fd'.date →
        (validateBookingForm fd).date = (validateBookingForm fd').date) ∧
      (fd.timeSlot = fd'.timeSlot →
        (validateBookingForm fd).timeSlot = (validateBookingForm fd').timeSlot) ∧
      (fd.email = "" → nameFieldOk fd.name = true → phoneFieldOk fd.phone = true →
        validateRequired fd.date = true → validateRequired fd.timeSlot = true →
        validateBookingForm fd = { email := some "Email is required" }) := by
  intro fd fd'
  refine ⟨?_, ?_, ?_, ?_, ?_,
    fun h => by simp [validateBookingForm, h],
    fun h => by simp [validateBookingForm, h],
    fun h => by simp [validateBookingForm, h],
    fun h => by simp [validateBookingForm, h],
    fun h => by simp [validateBookingForm, h],
    fun h0 h1 h2 h3 h4 => ?_⟩
  · by_cases h1 : validateRequired fd.name <;>
      by_cases h2 : (jsTrim fd.name).length < 2 <;>
        simp [validateBookingForm, nameFieldOk, h1, h2]
  · by_cases h1 : validateRequired fd.email <;>
      by_cases h2 : validateEmail fd.email <;>
        simp [validateBookingForm, emailFieldOk, h1, h2]
  · by_cases h1 : validateRequired fd.phone <;>
      by_cases h2 : validatePhone fd.phone <;>
        simp [validateBookingForm, phoneFieldOk, h1, h2]
  · by_cases h1 : validateRequired fd.date <;> simp [validateBookingForm, h1]
  · by_cases h1 : validateRequired fd.timeSlot <;> simp [validateBookingForm, h1]
  · have hereq : validateRequired fd.email = false := by rw [h0]; decide
    rw [nameFieldOk, Bool.and_eq_true] at h1
    rw [phoneFieldOk, Bool.and_eq_true] at h2
    have h1b : ¬ (jsTrim fd.name).length < 2 := by
      have := h1.2
      simpa using this
    simp [validateBookingForm, hereq, h1.1, h1b, h2.1, h2.2, h3, h4]

instance : IsTotal Booking createdAtDesc :=
  ⟨fun a b => Nat.le_total b.createdAt a.createdAt⟩

instance : IsTrans Booking createdAtDesc :=
  ⟨fun _ _ _ hab hbc => Nat.le_trans hbc hab⟩

/-- C5: `GET /api/bookings` returns every stored record (a permutation of
the store), ordered by `createdAt` most recent first, with no bound on the
result size (the response holds exactly as many records as the store). -/
theorem getBookings_complete_sorted :
    ∀ store : List Booking,
      (getBookings store).data.Perm store ∧
      List.Sorted createdAtDesc (getBookings store).data ∧
      (getBookings store).data.length = store.length := by
  intro store
  exact ⟨List.perm_insertionSort _ _, List.sorted_insertionSort _ _,
    List.length_insertionSort _ _⟩

/-- C10: in every successful list response the `count` field equals the
length of the returned `data` array, which is the number of records in the
store at query time. -/
theorem getBookings_count_eq_length :
    ∀ store : List Booking,
      (getBookings store).count = (getBookings store).data.length ∧
      (getBookings store).count = store.length := by
  intro store
  refine ⟨rfl, ?_⟩
  simp [getBookings]

theorem findByIdAndDelete_not_found (id : Nat) :
    ∀ store : List Booking, (∀ b ∈ store, b.id ≠ id) →
      findByIdAndDelete store id = (none, store)
  | [], _ => rfl
  | b :: rest, h => by
    simp only [findByIdAndDelete, if_neg (h b (List.mem_cons_self b rest)),
      findByIdAndDelete_not_found id rest fun x hx => h x (List.mem_cons_of_mem b hx)]

theorem findByIdAndDelete_found (id : Nat) :
    ∀ store : List Booking, (∃ b ∈ store, b.id = id) →
      ∃ pre m post, store = pre ++ m :: post ∧ m.id = id ∧ (∀ x ∈ pre, x.id ≠ id) ∧
        findByIdAndDelete store id = (some m, pre ++ post)
  | [], h => absurd h (by simp)
  | b :: rest, h => by
    by_cases hb : b.id = id
    · exact ⟨[], b, rest, rfl, hb, by simp, by simp [findByIdAndDelete, hb]⟩
    · have hrest : ∃ x ∈ rest, x.id = id := by
        obtain ⟨x, hx, hxid⟩ := h
        rcases List.mem_cons.mp hx with h1 | h2
        · exact absurd (h1 ▸ hxid) hb
        · exact ⟨x, h2, hxid⟩
      obtain ⟨pre, m, post, hsp, hmid, hpre, heq⟩ := findByIdAndDelete_found id rest hrest
      refine ⟨b :: pre, m, post, by simp [hsp], hmid, ?_, by simp [findByIdAndDelete, hb, heq]⟩
      intro x hx
      rcases List.mem_cons.mp hx with h1 | h2
      · exact h1 ▸ hb
      · exact hpre x h2

/-- C6: `DELETE /api/bookings/:id` removes the record matching the
identifier when one exists (the store loses exactly that record, everything
else kept in order) and answers 200; when no record matches it answers 404
"Booking not found" — not a generic 500 — and the store, hence its record
count, is unchanged. -/
theorem deleteBooking_found_and_not_found :
    ∀ (store : List Booking) (id : Nat),
      ((∀ b ∈ store, b.id ≠ id) →
        deleteBooking store id =
          ({ status := 404, success := false, message := "Booking not found" }, store)) ∧
      ((∃ b ∈ store, b.id = id) →
        ∃ pre m post,
          store = pre ++ m :: post ∧ m.id = id ∧ (∀ x ∈ pre, x.id ≠ id) ∧
          deleteBooking store id =
            ({ status := 200, success := true, message := "Booking deleted successfully" },
             pre ++ post)) := by
  intro store id
  constructor
  · intro h
    simp only [deleteBooking, findByIdAndDelete_not_found id store h]
  · intro h
    obtain ⟨pre, m, post, hsp, hmid, hpre, heq⟩ := findByIdAndDelete_found id store h
    exact ⟨pre, m, post, hsp, hmid, hpre, by simp only [deleteBooking, heq]⟩

theorem addRows_length (fmt : Nat → String) :
    ∀ (bs : List Booking) (k : Nat), (addRows fmt bs k).length = bs.length
  | [], _ => rfl
  | _ :: rest, k => by
    simp only [addRows, List.length_cons, addRows_length fmt rest (k + 1)]

theorem addRows_getD (fmt : Nat → String) :
    ∀ (bs : List Booking) (k i : Nat) (h : i < bs.length),
      (addRows fmt bs k).getD i [] = bookingRow fmt (k + i) (bs.get ⟨i, h⟩)
  | b :: rest, k, 0, _ => by simp [addRows]
  | b :: rest, k, i + 1, h => by
    have h' : i < rest.length := by simpa using Nat.lt_of_succ_lt_succ h
    have ih := addRows_getD fmt rest (k + 1) i h'
    have harith : k + 1 + i = k + (i + 1) := by omega
    rw [harith] at ih
    simpa [addRows, List.getD_cons_succ] using ih

/-- C7: the export worksheet holds exactly one header row followed by one
data row per record; row `i + 1` holds, in order, the 1-based sequence
number `i + 1`, name, email, phone, date, timeSlot and the formatted
creation time of the `i`-th record of the given list; the empty list yields
the header-only worksheet; and the output is a function of the record list
and the formatter (locale), hence deterministic. -/
theorem exportWorksheet_rows :
    ∀ (fmt : Nat → String) (bookings : List Booking),
      (exportWorksheet fmt bookings).length = bookings.length + 1 ∧
      (exportWorksheet fmt bookings).getD 0 [] =
        ["S.No", "Name", "Email", "Phone", "Date", "Time Slot", "Booked On"] ∧
      (∀ (i : Nat) (h : i < bookings.length),
        (exportWorksheet fmt bookings).getD (i + 1) [] =
          [toString (i + 1), (bookings.get ⟨i, h⟩).name, (bookings.get ⟨i, h⟩).email,
           (bookings.get ⟨i, h⟩).phone, (bookings.get ⟨i, h⟩).date,
           (bookings.get ⟨i, h⟩).timeSlot, fmt (bookings.get ⟨i, h⟩).createdAt]) ∧
      exportWorksheet fmt [] =
        [["S.No", "Name", "Email", "Phone", "Date", "Time Slot", "Booked On"]] := by
  intro fmt bookings
  refine ⟨?_, rfl, fun i h => ?_, rfl⟩
  · simp [exportWorksheet, addRows_length]
  · have := addRows_getD fmt bookings 0 i h
    simp only [exportWorksheet, List.getD_cons_succ, this, bookingRow, Nat.zero_add]

/-- String `sub` occurs as a contiguous substring of `s`. -/
def SubstringOf (sub s : String) : Prop :=
  ∃ l r : List Char, s.data = l ++ sub.data ++ r

theorem containsSub_iff {s sub : List Char} :
    containsSub s sub = true ↔ ∃ l r : List Char, s = l ++ sub ++ r := by
  constructor
  · intro h
    simp only [containsSub, List.any_eq_true, List.mem_range, beq_iff_eq] at h
    obtain ⟨i, hi, htake⟩ := h
    have h1 : s.drop i = sub ++ s.drop (i + sub.length) := by
      conv_lhs => rw [← List.take_append_drop sub.length (s.drop i), htake, List.drop_drop]
    refine ⟨s.take i, s.drop (i + sub.length), ?_⟩
    calc s = s.take i ++ s.drop i := (List.take_append_drop i s).symm
    _ = s.take i ++ (sub ++ s.drop (i + sub.length)) := by rw [h1]
    _ = s.take i ++ sub ++ s.drop (i + sub.length) := (List.append_assoc _ _ _).symm
  · rintro ⟨l, r, rfl⟩
    simp only [containsSub, List.any_eq_true, List.mem_range, beq_iff_eq]
    refine ⟨l.length, by simp; omega, ?_⟩
    rw [List.append_assoc, List.drop_left, List.take_left]

theorem containsSub_nil (s : List Char) : containsSub s [] = true := by
  simp only [containsSub, List.any_eq_true, List.mem_range]
  exact ⟨0, Nat.succ_pos _, by simp⟩

theorem matchesSearch_iff (t : String) (b : Booking) :
    matchesSearch t b = true ↔
      (SubstringOf (jsToLower t) (jsToLower b.name) ∨
       SubstringOf (jsToLower t) (jsToLower b.email) ∨
       SubstringOf t b.phone ∨
       SubstringOf (jsToLower t) (jsToLower b.date) ∨
       SubstringOf (jsToLower t) (jsToLower b.timeSlot)) := by
  simp only [matchesSearch, jsIncludes, SubstringOf, containsSub_iff, Bool.or_eq_true,
    or_assoc]

/-- C8: the client filter keeps exactly the records where the lowercased
term occurs in the lowercased name, email, date or timeSlot, or the raw
term occurs in the phone; the empty term keeps every record; and the result
is `List.filter` of the input — a fresh list, the input is untouched (the
embedding is pure). -/
theorem filteredBookings_charactn :
    ∀ (bookings : List Booking) (t : String),
      (t = "" → filteredBookings bookings t = bookings) ∧
      filteredBookings bookings t = bookings.filter (matchesSearch t) ∧
      (∀ b : Booking, b ∈ filteredBookings bookings t ↔
        b ∈ bookings ∧
          (SubstringOf (jsToLower t) (jsToLower b.name) ∨
           SubstringOf (jsToLower t) (jsToLower b.email) ∨
           SubstringOf t b.phone ∨
           SubstringOf (jsToLower t) (jsToLower b.date) ∨
           SubstringOf (jsToLower t) (jsToLower b.timeSlot))) := by
  intro bookings t
  have hmatch_empty : ∀ b : Booking, matchesSearch "" b = true := by
    intro b
    simp [matchesSearch, jsIncludes, jsToLower, containsSub_nil]
  have hfilter : filteredBookings bookings t = bookings.filter (matchesSearch t) := by
    by_cases ht : t = ""
    · rw [filteredBookings, if_pos ht, ht,
        List.filter_eq_self.mpr fun b _ => hmatch_empty b]
    · rw [filteredBookings, if_neg ht]
  refine ⟨fun ht => by simp [filteredBookings, ht], hfilter, fun b => ?_⟩
  rw [hfilter, List.mem_filter, matchesSearch_iff]

theorem sortLE_name_asc_iff (a b : Booking) :
    sortLE .name .asc a b ↔ jsToLower a.name ≤ jsToLower b.name := by
  unfold sortLE sortCompare compareLt
  by_cases h1 : jsToLower a.name < jsToLower b.name
  · simp [h1, le_of_lt h1]
  · by_cases h2 : jsToLower b.name < jsToLower a.name
    · simp [h1, h2, not_le.mpr h2]
    · simp [h1, h2, le_of_not_lt h2]

instance : IsTotal Booking (sortLE .name .asc) :=
  ⟨fun a b => by
    rw [sortLE_name_asc_iff, sortLE_name_asc_iff]
    exact le_total _ _⟩

instance : IsTrans Booking (sortLE .name .asc) :=
  ⟨fun a b c hab hbc => by
    rw [sortLE_name_asc_iff] at hab hbc ⊢
    exact le_trans hab hbc⟩

theorem filter_orderedInsert_eqKey {α : Type} (r : α → α → Prop) [DecidableRel r]
    (key : α → String) (hkey : ∀ a b, key a = key b → r a b) (k : String) (a : α) :
    ∀ l : List α,
      (List.orderedInsert r a l).filter (fun x => key x == k) =
        (a :: l).filter (fun x => key x == k)
  | [] => rfl
  | x :: l => by
    by_cases h : r a x
    · rw [List.orderedInsert, if_pos h]
    · rw [List.orderedInsert, if_neg h]
      have ih := filter_orderedInsert_eqKey r key hkey k a l
      by_cases hk : key a = k
      · have hx : ¬ key x = k := fun hxk => h (hkey a x (hk.trans hxk.symm))
        simp [List.filter_cons, ih, hk, hx]
      · simp [List.filter_cons, ih, hk]

theorem filter_insertionSort_eqKey {α : Type} (r : α → α → Prop) [DecidableRel r]
    (key : α → String) (hkey : ∀ a b, key a = key b → r a b) (k : String) :
    ∀ l : List α,
      (List.insertionSort r l).filter (fun x => key x == k) =
        l.filter (fun x => key x == k)
  | [] => rfl
  | x :: l => by
    rw [List.insertionSort, filter_orderedInsert_eqKey r key hkey k x _]
    simp only [List.filter_cons, filter_insertionSort_eqKey r key hkey k l]

/-- C9: sorting by name ascending is idempotent — sorting a list already
sorted ascending by lowercased name leaves it identical, so does sorting a
sorted output again; the comparator returns 0 on equal (lowercased) names;
and the sort is stable: the records carrying any fixed name key keep their
relative order from the input. -/
theorem sortByNameAsc_idempotent_stable :
    (∀ bookings : List Booking,
      sortedBookings .name .asc (sortedBookings .name .asc bookings) =
        sortedBookings .name .asc bookings) ∧
    (∀ bookings : List Booking, List.Sorted (sortLE .name .asc) bookings →
      sortedBookings .name .asc bookings = bookings) ∧
    (∀ a b : Booking, jsToLower a.name = jsToLower b.name →
      sortCompare .name .asc a b = 0) ∧
    (∀ (bookings : List Booking) (k : String),
      (sortedBookings .name .asc bookings).filter (fun b => jsToLower b.name == k) =
        bookings.filter (fun b => jsToLower b.name == k)) := by
  have hkey : ∀ a b : Booking, jsToLower a.name = jsToLower b.name → sortLE .name .asc a b :=
    fun a b h => (sortLE_name_asc_iff a b).mpr (le_of_eq h)
  refine ⟨fun bookings => ?_, fun bookings h => ?_, fun a b h => ?_, fun bookings k => ?_⟩
  · exact (List.sorted_insertionSort _ _).insertionSort_eq
  · exact h.insertionSort_eq
  · unfold sortCompare compareLt
    simp [h, lt_irrefl]
  · exact filter_insertionSort_eqKey (sortLE .name .asc)
      (fun b => jsToLower b.name) hkey k bookings

/-- C1 (amended): `POST /api/bookings` first rejects any request with a
missing/empty field ("All fields are required", 400, store untouched); it
then applies the Mongoose schema rules — not the client validator's rules —
to the trimmed (and for email lowercased) fields: if any schema rule fails
it answers 400 and the store is unchanged, and if all pass it persists
exactly one new record carrying the fresh identifier and timestamp and
answers 201 with that stored record. -/
theorem createBooking_validation_contract :
    ∀ (store : List Booking) (body : BookingInput) (freshId now : Nat),
      ((body.name = "" ∨ body.email = "" ∨ body.phone = "" ∨ body.date = "" ∨
          body.timeSlot = "") →
        createBooking store body freshId now =
          ({ status := 400, success := false, message := "All fields are required",
             data := none }, store)) ∧
      (body.name ≠ "" → body.email ≠ "" → body.phone ≠ "" → body.date ≠ "" →
        body.timeSlot ≠ "" → schemaErrors (applySetters body) ≠ [] →
        (createBooking store body freshId now).1.status = 400 ∧
        (createBooking store body freshId now).1.success = false ∧
        (createBooking store body freshId now).2 = store) ∧
      (body.name ≠ "" → body.email ≠ "" → body.phone ≠ "" → body.date ≠ "" →
        body.timeSlot ≠ "" → schemaErrors (applySetters body) = [] →
        createBooking store body freshId now =
          ({ status := 201, success := true, message := "Booking created successfully",
             data := some { id := freshId, name := (applySetters body).name,
                            email := (applySetters body).email,
                            phone := (applySetters body).phone,
                            date := (applySetters body).date,
                            timeSlot := (applySetters body).timeSlot,
                            createdAt := now } },
           store ++ [{ id := freshId, name := (applySetters body).name,
                       email := (applySetters body).email,
                       phone := (applySetters body).phone,
                       date := (applySetters body).date,
                       timeSlot := (applySetters body).timeSlot,
                       createdAt := now }])) := by
  intro store body freshId now
  refine ⟨fun h => ?_, fun h1 h2 h3 h4 h5 herr => ?_, fun h1 h2 h3 h4 h5 herr => ?_⟩
  · rcases h with h | h | h | h | h <;> simp [createBooking, h]
  · cases hsE : schemaErrors (applySetters body) with
    | nil => exact absurd hsE herr
    | cons e es => simp [createBooking, h1, h2, h3, h4, h5, hsE]
  · simp [createBooking, h1, h2, h3, h4, h5, herr]

/-- C1 (witness): a request with an empty name is rejected with the
validation-error envelope and an unchanged store. -/
theorem createBooking_validation_contract_witness :
    createBooking []
        { name := "", email := "a@b.co", phone := "9876543210",
          date := "February 15, 2026", timeSlot := "10:00 AM - 11:00 AM" } 1 5 =
      ({ status := 400, success := false, message := "All fields are required",
         data := none }, []) :=
  (createBooking_validation_contract [] _ 1 5).1 (Or.inl rfl)

/-- C1 (counterexample): the create route does not re-run the client
validator.  A body whose phone has 11 digits fails the client phone rule
(exactly 10 digits after stripping), yet the server persists it and answers
201: the schema only requires the trimmed phone to have length ≥ 10. -/
theorem createBooking_persists_client_invalid_phone :
    clientFormValid
        { name := "John Doe", email := "john@example.com", phone := "12345678901",
          date := "February 15, 2026", timeSlot := "10:00 AM - 11:00 AM" } = false ∧
    (validateBookingForm
        { name := "John Doe", email := "john@example.com", phone := "12345678901",
          date := "February 15, 2026", timeSlot := "10:00 AM - 11:00 AM" }).phone =
      some "Please enter exactly 10 digits" ∧
    createBooking []
        { name := "John Doe", email := "john@example.com", phone := "12345678901",
          date := "February 15, 2026", timeSlot := "10:00 AM - 11:00 AM" } 7 1700000000000 =
      ({ status := 201, success := true, message := "Booking created successfully",
         data := some { id := 7, name := "John Doe", email := "john@example.com",
                        phone := "12345678901", date := "February 15, 2026",
                        timeSlot := "10:00 AM - 11:00 AM", createdAt := 1700000000000 } },
       [{ id := 7, name := "John Doe", email := "john@example.com", phone := "12345678901",
          date := "February 15, 2026", timeSlot := "10:00 AM - 11:00 AM",
          createdAt := 1700000000000 }]) := by
  exact ⟨by decide, by decide, by decide⟩
